import Mathlib

/-!
Verification of the osc2 project working-copy engine (`osc/wc/project.py`)
and of `RemoteFile` (`osc/remote.py`).

The Python classes are shallowly embedded: the project working copy is a
record `ProjectEnv` holding the packages manifest together with boolean
oracles for the filesystem checks (`os.path.exists`, `os.path.isdir`,
`wc_is_project`, `wc_is_package`) and for the package black-box answers
(`is_updateable`, `is_commitable`, `is_modified`), all keyed by package
name since the source always joins the fixed working-copy path with the
package name.  Fallible code returns `Except PyExc`; a Python statement
that would raise `AttributeError` (calling a method on `None`) is
modelled by `Option` with `none` for the crash.
-/

/-- Python exceptions raised by the embedded code. -/
inductive PyExc where
  | valueError : String → PyExc
  | nameError : String → PyExc
  | fileConflictError : List String → PyExc
deriving DecidableEq, Repr

/-- The `_packages` manifest: ordered entries `(name, state)`,
as read by `wc_read_packages`. -/
abbrev Manifest := List (String × Char)

/-- The state of a project working copy plus the oracles the code of
`osc/wc/project.py` consults.  `pathExists p` is
`os.path.exists(os.path.join(self.path, p))`, `isDir p` likewise for
`os.path.isdir`; `wcIsProject` / `wcIsPackage` are the `osc.wc.util`
checks on `os.path.join(self.path, p)`; `isUpdateable`, `isCommitable`,
`isModified` are the answers of the package working copy rooted at
`os.path.join(self.path, p)`. -/
structure ProjectEnv where
  path : String
  name : String
  apiurl : String
  manifest : Manifest
  pathExists : String → Bool
  isDir : String → Bool
  wcIsProject : String → Bool
  wcIsPackage : String → Bool
  isUpdateable : String → Bool
  isCommitable : String → Bool
  isModified : String → Bool

namespace Osc2

/-- `Project.packages`: the names in manifest order. -/
def packagesOf (env : ProjectEnv) : List String :=
  env.manifest.map Prod.fst

/-- `Project._status` (project.py lines 165-187): `'?'` when the manifest
has no entry named `pkg`; `'!'` when the entry's state is not `'D'` but the
directory is missing; otherwise the entry's state. -/
def statusOf (env : ProjectEnv) (pkg : String) : Char :=
  match env.manifest.find? (fun e => e.1 == pkg) with
  | none => '?'
  | some e => if env.pathExists pkg = false ∧ e.2 ≠ 'D' then '!' else e.2

/-- `Project.package` (project.py lines 502-516): `none` when the status is
`'!'` or `'?'`, or when it is `'D'` and the directory is not a package
working copy; otherwise a handle identified by its root
`os.path.join(self.path, package)`. -/
def packageOf (env : ProjectEnv) (pkg : String) : Option String :=
  let st := statusOf env pkg
  if st = '!' ∨ st = '?' ∨ (st = 'D' ∧ env.wcIsPackage pkg = false) then none
  else some (env.path ++ "/" ++ pkg)

/-- `PackageUpdateInfo` (project.py lines 22-43). -/
structure PackageUpdateInfo where
  candidates : List String
  added : List String
  deleted : List String
  conflicted : List String
deriving DecidableEq, Repr

/-- `PackageCommitInfo` (project.py lines 46-62). -/
structure PackageCommitInfo where
  unchanged : List String
  added : List String
  deleted : List String
  modified : List String
  conflicted : List String
deriving DecidableEq, Repr

/-- The second loop of `_calculate_updateinfo` (project.py lines 205-211),
over the local package names: returns `(conflicted, deleted)`.  A package
whose working copy materialises and reports not updateable is conflicted;
otherwise a package whose status is not `'A'` and that is not in the
remote listing is deleted. -/
def updateLocalScan (env : ProjectEnv) (remote : List String) :
    List String → List String × List String
  | [] => ([], [])
  | p :: ps =>
    let r := updateLocalScan env remote ps
    if (packageOf env p).isSome ∧ env.isUpdateable p = false then
      (p :: r.1, r.2)
    else if statusOf env p ≠ 'A' ∧ p ∉ remote then
      (r.1, p :: r.2)
    else r

/-- The conflict test of the candidates re-scan (project.py lines 213-218).
Python evaluates `self._status(package) in ('A', '!')` first and only on
failure calls `pkg.is_updateable()`; when `pkg` is `None` that call raises
`AttributeError`, modelled as `none`. -/
def candCheck (env : ProjectEnv) (p : String) : Option Bool :=
  if statusOf env p = 'A' ∨ statusOf env p = '!' then some true
  else
    match packageOf env p with
    | none => none
    | some _ => some (! env.isUpdateable p)

/-- The candidates re-scan (project.py lines 213-218): iterates over a copy
of `candidates`, moving each `p` with a positive `candCheck` into
`conflicted` and removing it from `candidates`.  Returns
`(remaining candidates, newly conflicted)`; `none` when the scan raises. -/
def candidateScan (env : ProjectEnv) : List String → Option (List String × List String)
  | [] => some ([], [])
  | p :: ps =>
    match candCheck env p, candidateScan env ps with
    | none, _ => none
    | _, none => none
    | some true, some r => some (r.1, p :: r.2)
    | some false, some r => some (p :: r.1, r.2)

/-- The added re-scan test (project.py lines 219-224): an added package
collides when its status is `'?'` and `os.path.exists` holds for the
directory of the same name. -/
def addedCollision (env : ProjectEnv) (p : String) : Bool :=
  statusOf env p == '?' && env.pathExists p

/-- The selection step of `_calculate_updateinfo`
(project.py lines 225-230): each list is intersected with the `*packages`
selection only when one was given. -/
def applySel (sel : List String) (l : List String) : List String :=
  if sel.isEmpty then l else l.filter (fun p => decide (p ∈ sel))

/-- The first loop of `_calculate_updateinfo` (project.py lines 200-204):
remote packages that are also local are candidates. -/
def initialCandidates (env : ProjectEnv) (remote : List String) : List String :=
  remote.filter (fun p => decide (p ∈ packagesOf env))

/-- The first loop of `_calculate_updateinfo` (project.py lines 200-204):
remote packages that are not local are added. -/
def initialAdded (env : ProjectEnv) (remote : List String) : List String :=
  remote.filter (fun p => decide (p ∉ packagesOf env))

/-- `Project._calculate_updateinfo` (project.py lines 192-231), with the
remote listing `remote` (the names produced by `SourceProject.list`) and
the `*packages` selection `sel` (empty list = no selection).  `none`
models the `AttributeError` the candidates re-scan raises when a
candidate's package working copy cannot be materialised. -/
def calculateUpdateinfo (env : ProjectEnv) (remote : List String)
    (sel : List String) : Option PackageUpdateInfo :=
  match candidateScan env (initialCandidates env remote) with
  | none => none
  | some cr =>
    some ⟨applySel sel cr.1,
          applySel sel
            ((initialAdded env remote).filter (fun p => !(addedCollision env p))),
          applySel sel (updateLocalScan env remote (packagesOf env)).2,
          applySel sel
            ((updateLocalScan env remote (packagesOf env)).1 ++ cr.2 ++
             (initialAdded env remote).filter (fun p => addedCollision env p))⟩

/-- The bucket `_calculate_commitinfo` (project.py lines 353-380) assigns
to one package: state `'A'` is added, state `'D'` deleted; a package whose
working copy cannot be materialised is conflicted; otherwise modified when
modified and commitable, conflicted when not commitable, else unchanged. -/
inductive CBucket where
  | unchanged | added | deleted | modified | conflicted
deriving DecidableEq, Repr

/-- The per-package case analysis of `_calculate_commitinfo`
(project.py lines 361-378). -/
def commitBucket (env : ProjectEnv) (p : String) : CBucket :=
  let st := statusOf env p
  if st = 'A' then .added
  else if st = 'D' then .deleted
  else
    match packageOf env p with
    | none => .conflicted
    | some _ =>
      if env.isModified p = true ∧ env.isCommitable p = true then .modified
      else if env.isCommitable p = false then .conflicted
      else .unchanged

/-- `Project._calculate_commitinfo` (project.py lines 353-380): iterates
over the `*packages` selection (all manifest names when empty), appending
each package to the list of its bucket in iteration order. -/
def calculateCommitinfo (env : ProjectEnv) (sel : List String) : PackageCommitInfo :=
  let pkgs := if sel.isEmpty then packagesOf env else sel
  ⟨pkgs.filter (fun p => commitBucket env p == .unchanged),
   pkgs.filter (fun p => commitBucket env p == .added),
   pkgs.filter (fun p => commitBucket env p == .deleted),
   pkgs.filter (fun p => commitBucket env p == .modified),
   pkgs.filter (fun p => commitBucket env p == .conflicted)⟩

/-- The fresh-transaction branch of `Project.commit`
(project.py lines 398-410): with no pending transaction record the commit
info is classified and, when `conflicted` is non-empty, a
`FileConflictError` carrying the conflict list is raised before
`_transaction_begin` runs; `.ok` returns the info with which the
transaction would be begun.  (The pending-transaction guard
`is_commitable(rollback=True)` lives in `osc/wc/base.py`, outside this
repository slice; the no-pending path is the one embedded.) -/
def projectCommitClassify (env : ProjectEnv) (sel : List String) :
    Except PyExc PackageCommitInfo :=
  let cinfo := calculateCommitinfo env sel
  if cinfo.conflicted = [] then .ok cinfo
  else .error (.fileConflictError cinfo.conflicted)

/-- The arguments of one call of the package black-box
`init(path, project, name, api_url, external_store)` contract slot by
slot. -/
structure InitCall where
  path : String
  project : String
  name : String
  apiurl : String
  ext_storedir : String
deriving DecidableEq, Repr

/-- The `Package.init` call issued by the update add-phase
`_perform_adds` (project.py lines 296-298):
`Package.init(tmp_dir, self.name, package, self.apiurl, storedir)` where
`tmp_dir = os.path.join(ustate.location, package)` and
`storedir = wc_pkg_data_filename(self.path, package)`, i.e. the
`data/<pkg>` store directory. -/
def performAddsInitCall (env : ProjectEnv) (location : String)
    (package : String) : InitCall :=
  ⟨location ++ "/" ++ package, env.name, package, env.apiurl,
   env.path ++ "/.osc/data/" ++ package⟩

/-- `Project.add` (project.py lines 451-477): requires status `'?'`, an
existing directory that is not already a working copy; then calls
`Package.init(pkg_path, pkg, self.name, self.apiurl, ext_storedir=storedir)`
(note the argument order as written in the source) and appends
`(pkg, 'A')` to the manifest.  Returns the issued `InitCall` and the new
working-copy state. -/
def projectAdd (env : ProjectEnv) (pkg : String) :
    Except PyExc (InitCall × ProjectEnv) :=
  if statusOf env pkg ≠ '?' then
    .error (.valueError ("package " ++ pkg ++ " is already tracked"))
  else if env.isDir pkg = false then
    .error (.valueError ("path " ++ env.path ++ "/" ++ pkg ++ " is no dir"))
  else if env.wcIsProject pkg = true ∨ env.wcIsPackage pkg = true then
    .error (.valueError ("path " ++ env.path ++ "/" ++ pkg ++
      " is already an initializedworking copy"))
  else
    let pkgPath := env.path ++ "/" ++ pkg
    let storedir := env.path ++ "/.osc/data/" ++ pkg
    .ok (⟨pkgPath, pkg, env.name, env.apiurl, storedir⟩,
         { env with manifest := env.manifest ++ [(pkg, 'A')] })

/-- `Project.remove` (project.py lines 479-500): raises on untracked
packages; drops the entry outright when the status is `'A'`; otherwise
sets the entry's state to `'D'`.  (`_packages.remove` and
`_packages.set` live in `osc/wc/util.py`, outside this repository slice;
they are modelled from the spec's words "if `'A'` drop entry outright,
else set state to `'D'`".) -/
def projectRemove (env : ProjectEnv) (pkg : String) : Except PyExc ProjectEnv :=
  let st := statusOf env pkg
  if st = '?' then
    .error (.valueError ("package " ++ pkg ++ " is not under version control"))
  else if st = 'A' then
    .ok { env with manifest := env.manifest.filter (fun e => !(e.1 == pkg)) }
  else
    .ok { env with
          manifest := env.manifest.map
            (fun e => if e.1 = pkg then (e.1, 'D') else e) }

/-- The commit transaction phases of `CommitStateMixin`
(`osc/wc/base.py`, outside this repository slice).
Modelled from the spec: "States: `TRANSFER` (initial), `COMMITTING`." -/
inductive CommitPhase where
  | transfer | committing
deriving DecidableEq, Repr

/-- A project commit transaction record as `read_state` returns it:
its `name` tag and its phase. -/
structure CommitRecord where
  name : String
  phase : CommitPhase
deriving DecidableEq, Repr

/-- `ProjectCommitState.rollback` (project.py lines 119-127) as written:
after the `name` check, line 124 reads `if ustate.state == ...`, but
`ustate` is bound nowhere in this function or module, so Python raises a
`NameError` before the phase is even compared — for every phase. -/
def commitRollback (cstate : CommitRecord) : Except PyExc Bool :=
  if cstate.name ≠ "commit" then .error (.valueError "no commit transaction")
  else .error (.nameError "ustate")

/-- `RemoteFile` (remote.py lines 309-354): the fields the constructor
sets; `fobjOpen` models whether `self._fobj` is populated. -/
structure RemoteFile where
  path : String
  stream_bufsize : Nat
  method : String
  fobjOpen : Bool
deriving DecidableEq, Repr

/-- `RemoteFile.__init__` (remote.py lines 318-335): the source assigns
the literal `self.method = 'GET'`, so the `method` parameter is received
and then ignored. -/
def remoteFileInit (path : String) (stream_bufsize : Nat := 8192)
    (method : String := "GET") : RemoteFile :=
  ⟨path, stream_bufsize, "GET", false⟩

/-- `RemoteFile.read` / `RemoteFile._read` (remote.py lines 337-350):
when `self._fobj` is `None`, `_read` resolves the HTTP request function
from `self.method` via `_get_http_method` and issues the request.
Returns the HTTP method of the request issued by this read (`none` when
the file object already exists and no request is issued), together with
the file after the read. -/
def remoteFileRead (f : RemoteFile) : Option String × RemoteFile :=
  if f.fobjOpen then (none, f)
  else (some f.method, { f with fobjOpen := true })

/-- The scenario-4 working copy of the spec (fixture `prj2` of the repo's
tests): manifest `foo=' '`, `bar='A'`, `abc='D'`, `xxx=' '` (directory
missing), `del='D'` (directory missing), plus an untracked directory
`asdf/`.  Every package directory that exists and is tracked is a package
working copy, and every materialisable package working copy reports
`is_updateable() = true`. -/
def prj2Env : ProjectEnv where
  path := "/prj2"
  name := "prj2"
  apiurl := "http://localhost"
  manifest := [("foo", ' '), ("bar", 'A'), ("abc", 'D'), ("xxx", ' '), ("del", 'D')]
  pathExists := fun p => (["foo", "bar", "abc", "asdf"] : List String).contains p
  isDir := fun p => (["foo", "bar", "abc", "asdf"] : List String).contains p
  wcIsProject := fun _ => false
  wcIsPackage := fun p => (["foo", "bar", "abc"] : List String).contains p
  isUpdateable := fun _ => true
  isCommitable := fun _ => true
  isModified := fun _ => false

/-- A working copy with a single tracked, present package `foo` whose
package working copy reports `is_updateable() = false`. -/
def notUpdateableEnv : ProjectEnv where
  path := "/wc"
  name := "wc"
  apiurl := "http://localhost"
  manifest := [("foo", ' ')]
  pathExists := fun p => p == "foo"
  isDir := fun p => p == "foo"
  wcIsProject := fun _ => false
  wcIsPackage := fun p => p == "foo"
  isUpdateable := fun _ => false
  isCommitable := fun _ => true
  isModified := fun _ => false

/-- Pairwise disjointness of the four update-info lists, as the spec's
classifier-disjointness invariant words it. -/
def updateListsDisjoint (ui : PackageUpdateInfo) : Prop :=
  ui.candidates.Disjoint ui.added ∧ ui.candidates.Disjoint ui.deleted ∧
  ui.candidates.Disjoint ui.conflicted ∧ ui.added.Disjoint ui.deleted ∧
  ui.added.Disjoint ui.conflicted ∧ ui.deleted.Disjoint ui.conflicted

/-- Pairwise disjointness of the five commit-info lists, as the spec's
classifier-disjointness invariant words it. -/
def commitListsDisjoint (ci : PackageCommitInfo) : Prop :=
  ci.unchanged.Disjoint ci.added ∧ ci.unchanged.Disjoint ci.deleted ∧
  ci.unchanged.Disjoint ci.modified ∧ ci.unchanged.Disjoint ci.conflicted ∧
  ci.added.Disjoint ci.deleted ∧ ci.added.Disjoint ci.modified ∧
  ci.added.Disjoint ci.conflicted ∧ ci.deleted.Disjoint ci.modified ∧
  ci.deleted.Disjoint ci.conflicted ∧ ci.modified.Disjoint ci.conflicted

/-! ## Helper lemmas -/

theorem find?_append_of_none {α : Type} {l1 l2 : List α} {p : α → Bool}
    (h : l1.find? p = none) : (l1 ++ l2).find? p = l2.find? p := by
  induction l1 with
  | nil => rfl
  | cons a l ih =>
    cases hp : p a with
    | true => simp [List.find?_cons, hp] at h
    | false =>
      simp only [List.cons_append, List.find?_cons, hp] at h ⊢
      exact ih h

theorem mem_applySel {sel l : List String} {p : String}
    (h : p ∈ applySel sel l) : p ∈ l := by
  unfold applySel at h
  split at h
  · exact h
  · exact (List.mem_filter.mp h).1

theorem mem_initialCandidates {env : ProjectEnv} {remote : List String}
    {p : String} (h : p ∈ initialCandidates env remote) :
    p ∈ remote ∧ p ∈ packagesOf env := by
  have := List.mem_filter.mp h
  exact ⟨this.1, of_decide_eq_true this.2⟩

theorem mem_initialAdded {env : ProjectEnv} {remote : List String}
    {p : String} (h : p ∈ initialAdded env remote) :
    p ∈ remote ∧ p ∉ packagesOf env := by
  have := List.mem_filter.mp h
  exact ⟨this.1, of_decide_eq_true this.2⟩

theorem updateLocalScan_conflicted_mem {env : ProjectEnv}
    {remote l : List String} {p : String}
    (h : p ∈ (updateLocalScan env remote l).1) :
    p ∈ l ∧ (packageOf env p).isSome ∧ env.isUpdateable p = false := by
  induction l with
  | nil => simp [updateLocalScan] at h
  | cons q qs ih =>
    by_cases h1 : (packageOf env q).isSome ∧ env.isUpdateable q = false
    · rw [updateLocalScan, if_pos h1] at h
      rcases List.mem_cons.mp h with rfl | h
      · exact ⟨List.mem_cons_self _ _, h1⟩
      · have := ih h
        exact ⟨List.mem_cons_of_mem q this.1, this.2⟩
    · by_cases h2 : statusOf env q ≠ 'A' ∧ q ∉ remote
      · rw [updateLocalScan, if_neg h1, if_pos h2] at h
        have := ih h
        exact ⟨List.mem_cons_of_mem q this.1, this.2⟩
      · rw [updateLocalScan, if_neg h1, if_neg h2] at h
        have := ih h
        exact ⟨List.mem_cons_of_mem q this.1, this.2⟩

theorem updateLocalScan_deleted_mem {env : ProjectEnv}
    {remote l : List String} {p : String}
    (h : p ∈ (updateLocalScan env remote l).2) :
    p ∈ l ∧ statusOf env p ≠ 'A' ∧ p ∉ remote ∧
      ¬((packageOf env p).isSome ∧ env.isUpdateable p = false) := by
  induction l with
  | nil => simp [updateLocalScan] at h
  | cons q qs ih =>
    by_cases h1 : (packageOf env q).isSome ∧ env.isUpdateable q = false
    · rw [updateLocalScan, if_pos h1] at h
      have := ih h
      exact ⟨List.mem_cons_of_mem q this.1, this.2⟩
    · by_cases h2 : statusOf env q ≠ 'A' ∧ q ∉ remote
      · rw [updateLocalScan, if_neg h1, if_pos h2] at h
        rcases List.mem_cons.mp h with rfl | h
        · exact ⟨List.mem_cons_self _ _, h2.1, h2.2, h1⟩
        · have := ih h
          exact ⟨List.mem_cons_of_mem q this.1, this.2⟩
      · rw [updateLocalScan, if_neg h1, if_neg h2] at h
        have := ih h
        exact ⟨List.mem_cons_of_mem q this.1, this.2⟩

theorem candCheck_eq_false {env : ProjectEnv} {p : String}
    (h : candCheck env p = some false) :
    (packageOf env p).isSome ∧ env.isUpdateable p = true ∧
      statusOf env p ≠ 'A' ∧ statusOf env p ≠ '!' := by
  unfold candCheck at h
  split at h
  · simp at h
  · rename_i hst
    push_neg at hst
    cases hpk : packageOf env p with
    | none => rw [hpk] at h; simp at h
    | some v =>
      rw [hpk] at h
      simp only [Option.some.injEq, Bool.not_eq_false'] at h
      exact ⟨by simp [hpk], h, hst.1, hst.2⟩

theorem candCheck_eq_true {env : ProjectEnv} {p : String}
    (h : candCheck env p = some true) :
    (statusOf env p = 'A' ∨ statusOf env p = '!') ∨
      env.isUpdateable p = false := by
  unfold candCheck at h
  split at h
  · left; assumption
  · cases hpk : packageOf env p with
    | none => rw [hpk] at h; simp at h
    | some v =>
      rw [hpk] at h
      simp only [Option.some.injEq, Bool.not_eq_true'] at h
      right; exact h

theorem candidateScan_mem {env : ProjectEnv} {l c k : List String}
    (h : candidateScan env l = some (c, k)) :
    (∀ p ∈ c, p ∈ l ∧ candCheck env p = some false) ∧
    (∀ p ∈ k, p ∈ l ∧ candCheck env p = some true) := by
  induction l generalizing c k with
  | nil =>
    simp only [candidateScan, Option.some.injEq, Prod.mk.injEq] at h
    obtain ⟨hc, hk⟩ := h
    subst hc; subst hk
    simp
  | cons q qs ih =>
    cases hq : candCheck env q with
    | none => simp [candidateScan, hq] at h
    | some b =>
      cases hr : candidateScan env qs with
      | none => cases b <;> simp [candidateScan, hq, hr] at h
      | some r =>
        obtain ⟨rc, rk⟩ := r
        have ihr := ih hr
        cases b with
        | true =>
          simp only [candidateScan, hq, hr, Option.some.injEq,
                     Prod.mk.injEq] at h
          obtain ⟨hc, hk⟩ := h
          subst hc; subst hk
          refine ⟨fun p hp => ?_, fun p hp => ?_⟩
          · have := ihr.1 p hp
            exact ⟨List.mem_cons_of_mem q this.1, this.2⟩
          · rcases List.mem_cons.mp hp with rfl | hp
            · exact ⟨List.mem_cons_self _ _, hq⟩
            · have := ihr.2 p hp
              exact ⟨List.mem_cons_of_mem q this.1, this.2⟩
        | false =>
          simp only [candidateScan, hq, hr, Option.some.injEq,
                     Prod.mk.injEq] at h
          obtain ⟨hc, hk⟩ := h
          subst hc; subst hk
          refine ⟨fun p hp => ?_, fun p hp => ?_⟩
          · rcases List.mem_cons.mp hp with rfl | hp
            · exact ⟨List.mem_cons_self _ _, hq⟩
            · have := ihr.1 p hp
              exact ⟨List.mem_cons_of_mem q this.1, this.2⟩
          · have := ihr.2 p hp
            exact ⟨List.mem_cons_of_mem q this.1, this.2⟩

theorem statusOf_eq_unknown {env : ProjectEnv} {pkg : String}
    (hf : env.manifest.find? (fun x => x.1 == pkg) = none) :
    statusOf env pkg = '?' := by
  unfold statusOf
  rw [hf]

theorem statusOf_eq_of_find? {env : ProjectEnv} {pkg : String}
    {e : String × Char}
    (hf : env.manifest.find? (fun x => x.1 == pkg) = some e)
    (hex : env.pathExists pkg = true) : statusOf env pkg = e.2 := by
  unfold statusOf
  rw [hf]
  show (if env.pathExists pkg = false ∧ e.2 ≠ 'D' then '!' else e.2) = e.2
  rw [if_neg]
  rintro ⟨h1, -⟩
  rw [hex] at h1
  exact Bool.noConfusion h1

theorem find?_map_setD {m : Manifest} {q : String} {e : String × Char}
    (h : m.find? (fun x => x.1 == q) = some e) :
    (m.map (fun x => if x.1 = q then (x.1, 'D') else x)).find?
      (fun x => x.1 == q) = some (q, 'D') := by
  induction m with
  | nil => simp at h
  | cons a as ih =>
    by_cases ha : a.1 = q
    · simp [List.find?_cons, ha]
    · have hpa : (a.1 == q) = false := by
        simp [ha]
      rw [List.find?_cons, hpa] at h
      simp only [List.map_cons, List.find?_cons, if_neg ha, hpa]
      exact ih h

theorem commitBucket_filter_disjoint (env : ProjectEnv) (l : List String)
    {b1 b2 : CBucket} (hne : b1 ≠ b2) :
    (l.filter (fun p => commitBucket env p == b1)).Disjoint
      (l.filter (fun p => commitBucket env p == b2)) := by
  intro a h1 h2
  have e1 := (List.mem_filter.mp h1).2
  have e2 := (List.mem_filter.mp h2).2
  rw [beq_iff_eq] at e1 e2
  exact hne (e1.symm.trans e2)

theorem commitinfo_disjoint (env : ProjectEnv) (sel : List String) :
    commitListsDisjoint (calculateCommitinfo env sel) := by
  unfold commitListsDisjoint calculateCommitinfo
  refine ⟨?_, ?_, ?_, ?_, ?_, ?_, ?_, ?_, ?_, ?_⟩ <;>
    exact commitBucket_filter_disjoint _ _ (by decide)

/-! ## Claim theorems -/

/-- C1 (counterexample): on the scenario-4 working copy with the remote
listing exactly `{foo, abc, osc}`, `_calculate_updateinfo` puts `xxx` in
`deleted` (it is not on the server, its status `'!'` is not `'A'`) and
leaves `conflicted` empty — not `deleted=[del]`, `conflicted=[xxx]` as
claimed. -/
theorem update_classification_one_cex :
    calculateUpdateinfo prj2Env ["foo", "abc", "osc"] [] =
      some ⟨["foo", "abc"], ["osc"], ["xxx", "del"], []⟩ ∧
    (⟨["foo", "abc"], ["osc"], ["xxx", "del"], []⟩ : PackageUpdateInfo) ≠
      ⟨["foo", "abc"], ["osc"], ["del"], ["xxx"]⟩ :=
  ⟨by decide, by decide⟩

/-- C1 (amended): the buckets the claim lists arise when the remote
listing also contains `xxx` (as in the repository's `prj2_list1.xml`
fixture expectations): with remote `{foo, abc, osc, xxx}` the result is
`candidates=[foo, abc]`, `added=[osc]`, `deleted=[del]`,
`conflicted=[xxx]`. -/
theorem update_classification_one_amended :
    calculateUpdateinfo prj2Env ["foo", "abc", "osc", "xxx"] [] =
      some ⟨["foo", "abc"], ["osc"], ["del"], ["xxx"]⟩ := by
  decide

/-- C2: for every commit transaction record named `commit`,
`ProjectCommitState.rollback` raises `NameError` (`ustate` is unbound at
project.py line 124) instead of erasing the record and returning `True`
in the `TRANSFER` phase — whatever the phase is. -/
theorem commit_rollback_raises (c : CommitRecord) (h : c.name = "commit") :
    commitRollback c = Except.error (PyExc.nameError "ustate") := by
  unfold commitRollback
  rw [if_neg (fun hne => hne h)]

/-- Witness for C2 at a record in the initial `TRANSFER` phase. -/
theorem commit_rollback_raises_witness :
    commitRollback ⟨"commit", CommitPhase.transfer⟩ =
      Except.error (PyExc.nameError "ustate") :=
  commit_rollback_raises ⟨"commit", CommitPhase.transfer⟩ rfl

/-- C4 (counterexample): a tracked, present package `foo` whose working
copy reports not updateable and that is also listed remotely is appended
to `conflicted` twice — once by the local scan, once by the candidates
re-scan — so a name appears in two positions of the classification. -/
theorem classifier_duplicate_conflicted_cex :
    calculateUpdateinfo notUpdateableEnv ["foo"] [] =
      some ⟨[], [], [], ["foo", "foo"]⟩ ∧
    ¬ (["foo", "foo"] : List String).Nodup :=
  ⟨by decide, by decide⟩

/-- C5: on a manifest whose states are all in `{' ', 'A', 'D'}`,
`_status` is total with the claimed case analysis: it yields exactly one
of `{' ', 'A', 'D', '!', '?'}`, namely `'?'` when the package is absent
from the manifest, `'!'` when the state is `' '` or `'A'` but the
directory is missing, `'D'` whenever the state is `'D'`, and the manifest
state when the directory is present. -/
theorem status_total_spec (env : ProjectEnv) (p : String)
    (hwf : ∀ e ∈ env.manifest, e.2 = ' ' ∨ e.2 = 'A' ∨ e.2 = 'D') :
    (statusOf env p = ' ' ∨ statusOf env p = 'A' ∨ statusOf env p = 'D' ∨
     statusOf env p = '!' ∨ statusOf env p = '?') ∧
    (env.manifest.find? (fun x => x.1 == p) = none → statusOf env p = '?') ∧
    (∀ e, env.manifest.find? (fun x => x.1 == p) = some e →
      ((e.2 = ' ' ∨ e.2 = 'A') → env.pathExists p = false →
        statusOf env p = '!') ∧
      (e.2 = 'D' → statusOf env p = 'D') ∧
      (env.pathExists p = true → statusOf env p = e.2)) := by
  refine ⟨?_, fun h => statusOf_eq_unknown h, ?_⟩
  · cases hf : env.manifest.find? (fun x => x.1 == p) with
    | none =>
      exact Or.inr (Or.inr (Or.inr (Or.inr (statusOf_eq_unknown hf))))
    | some e =>
      have he := hwf e (List.mem_of_find?_eq_some hf)
      have hgoal : statusOf env p =
          if env.pathExists p = false ∧ e.2 ≠ 'D' then '!' else e.2 := by
        unfold statusOf
        rw [hf]
      rw [hgoal]
      split
      · exact Or.inr (Or.inr (Or.inr (Or.inl rfl)))
      · rcases he with h | h | h
        · exact Or.inl h
        · exact Or.inr (Or.inl h)
        · exact Or.inr (Or.inr (Or.inl h))
  · intro e hf
    have hgoal : statusOf env p =
        if env.pathExists p = false ∧ e.2 ≠ 'D' then '!' else e.2 := by
      unfold statusOf
      rw [hf]
    refine ⟨?_, ?_, fun hex => statusOf_eq_of_find? hf hex⟩
    · intro hst hpe
      have hD : e.2 ≠ 'D' := by
        rcases hst with h | h <;> rw [h] <;> decide
      rw [hgoal, if_pos ⟨hpe, hD⟩]
    · intro hd
      rw [hgoal, if_neg (fun hc => hc.2 hd)]
      exact hd

/-- Witness for C5 on the scenario-4 working copy. -/
theorem status_total_spec_witness :
    statusOf prj2Env "xxx" = ' ' ∨ statusOf prj2Env "xxx" = 'A' ∨
    statusOf prj2Env "xxx" = 'D' ∨ statusOf prj2Env "xxx" = '!' ∨
    statusOf prj2Env "xxx" = '?' :=
  (status_total_spec prj2Env "xxx" (by decide)).1

/-- C7: `Project.package` returns `None` exactly when the status is `'!'`
or `'?'`, or `'D'` without a package working copy on disk; in every other
case it returns a handle rooted at `os.path.join(self.path, package)`. -/
theorem package_handle_spec (env : ProjectEnv) (p : String) :
    (packageOf env p = none ↔
      (statusOf env p = '!' ∨ statusOf env p = '?' ∨
       (statusOf env p = 'D' ∧ env.wcIsPackage p = false))) ∧
    (packageOf env p ≠ none →
      packageOf env p = some (env.path ++ "/" ++ p)) := by
  by_cases hc : statusOf env p = '!' ∨ statusOf env p = '?' ∨
      (statusOf env p = 'D' ∧ env.wcIsPackage p = false)
  · constructor
    · simp [packageOf, hc]
    · intro h
      exact absurd (by simp [packageOf, hc]) h
  · constructor
    · simp [packageOf, hc]
    · intro h
      simp [packageOf, hc]

/-- Witness for C7: on the scenario-4 working copy, `xxx` (status `'!'`)
has no package handle. -/
theorem package_handle_spec_witness : packageOf prj2Env "xxx" = none :=
  (package_handle_spec prj2Env "xxx").1.mpr (by decide)

/-- C10: `RemoteFile.__init__` stores the literal `'GET'` whatever value
the `method` parameter carries, and the request a read issues uses that
stored method, hence `GET`. -/
theorem remoteFile_method_always_get (path : String) (bufsize : Nat)
    (m : String) :
    (remoteFileInit path bufsize m).method = "GET" ∧
    (remoteFileRead (remoteFileInit path bufsize m)).1 = some "GET" :=
  ⟨rfl, rfl⟩

/-- C3: for every package passing `add`'s preconditions, the source's
`Package.init(pkg_path, pkg, self.name, self.apiurl, ext_storedir=...)`
call fills the contract slot `project` with the package name and the slot
`name` with the project name — the opposite of the
`init(path, project, name, api_url, external_store)` convention that the
update add-phase `_perform_adds` uses — while the manifest append of
`(pkg, 'A')` happens as described. -/
theorem add_init_args_swapped (env : ProjectEnv) (pkg loc : String)
    (h0 : env.manifest.find? (fun x => x.1 == pkg) = none)
    (h2 : env.isDir pkg = true)
    (h4 : env.wcIsProject pkg = false) (h5 : env.wcIsPackage pkg = false) :
    ∃ env2,
      projectAdd env pkg =
        Except.ok (⟨env.path ++ "/" ++ pkg, pkg, env.name, env.apiurl,
                    env.path ++ "/.osc/data/" ++ pkg⟩, env2) ∧
      env2.manifest = env.manifest ++ [(pkg, 'A')] ∧
      performAddsInitCall env loc pkg =
        ⟨loc ++ "/" ++ pkg, env.name, pkg, env.apiurl,
         env.path ++ "/.osc/data/" ++ pkg⟩ := by
  have hst : statusOf env pkg = '?' := statusOf_eq_unknown h0
  have hA : ¬ statusOf env pkg ≠ '?' := fun hne => hne hst
  have hB : ¬ env.isDir pkg = false := by
    rw [h2]
    exact fun hh => Bool.noConfusion hh
  have hC : ¬ (env.wcIsProject pkg = true ∨ env.wcIsPackage pkg = true) := by
    rintro (hh | hh)
    · rw [h4] at hh
      exact Bool.noConfusion hh
    · rw [h5] at hh
      exact Bool.noConfusion hh
  refine ⟨{ env with manifest := env.manifest ++ [(pkg, 'A')] }, ?_, rfl, rfl⟩
  unfold projectAdd
  rw [if_neg hA, if_neg hB, if_neg hC]

/-- Witness for C3: adding the untracked directory `asdf` to the
scenario-4 working copy. -/
theorem add_init_args_swapped_witness :
    ∃ env2,
      projectAdd prj2Env "asdf" =
        Except.ok (⟨prj2Env.path ++ "/" ++ "asdf", "asdf", prj2Env.name,
                    prj2Env.apiurl,
                    prj2Env.path ++ "/.osc/data/" ++ "asdf"⟩, env2) ∧
      env2.manifest = prj2Env.manifest ++ [("asdf", 'A')] ∧
      performAddsInitCall prj2Env "/tmp/txn" "asdf" =
        ⟨"/tmp/txn" ++ "/" ++ "asdf", prj2Env.name, "asdf", prj2Env.apiurl,
         prj2Env.path ++ "/.osc/data/" ++ "asdf"⟩ :=
  add_init_args_swapped prj2Env "asdf" "/tmp/txn" (by decide) (by decide)
    (by decide) (by decide)

/-- C6: the update classifier never deletes a scheduled add — every
package in the `deleted` list has status other than `'A'` — and on the
scenario-4 working copy with an empty remote listing the result is
`candidates=[]`, `added=[]`, `deleted=[foo, abc, xxx, del]`,
`conflicted=[]`. -/
theorem update_no_delete_of_scheduled_add (env : ProjectEnv)
    (remote sel : List String) (ui : PackageUpdateInfo)
    (h : calculateUpdateinfo env remote sel = some ui) :
    (∀ p ∈ ui.deleted, statusOf env p ≠ 'A') ∧
    calculateUpdateinfo prj2Env [] [] =
      some ⟨[], [], ["foo", "abc", "xxx", "del"], []⟩ := by
  refine ⟨?_, by decide⟩
  intro p hp
  cases hcs : candidateScan env (initialCandidates env remote) with
  | none => simp [calculateUpdateinfo, hcs] at h
  | some cr =>
    simp only [calculateUpdateinfo, hcs, Option.some.injEq] at h
    subst h
    exact (updateLocalScan_deleted_mem (mem_applySel hp)).2.1

/-- Witness for C6 at the scenario-4 working copy with empty remote. -/
theorem update_no_delete_witness :
    (∀ p ∈ (⟨[], [], ["foo", "abc", "xxx", "del"], []⟩ :
        PackageUpdateInfo).deleted, statusOf prj2Env p ≠ 'A') ∧
    calculateUpdateinfo prj2Env [] [] =
      some ⟨[], [], ["foo", "abc", "xxx", "del"], []⟩ :=
  update_no_delete_of_scheduled_add prj2Env [] []
    ⟨[], [], ["foo", "abc", "xxx", "del"], []⟩ (by decide)

/-- C9: a name in the commit selection that is absent from the manifest
(status `'?'`, hence no package handle) is classified as conflicted, so
the fresh-transaction branch of `commit` raises `FileConflictError`
containing it before the transaction is begun. -/
theorem commit_untracked_conflict (env : ProjectEnv) (sel : List String)
    (p : String) (hp : p ∈ sel)
    (h0 : env.manifest.find? (fun x => x.1 == p) = none)
    (hdir : env.pathExists p = false) :
    ∃ conflicts,
      projectCommitClassify env sel =
        Except.error (PyExc.fileConflictError conflicts) ∧ p ∈ conflicts := by
  have hst : statusOf env p = '?' := statusOf_eq_unknown h0
  have hpk : packageOf env p = none := by
    simp only [packageOf]
    rw [if_pos (Or.inr (Or.inl hst))]
  have hb : commitBucket env p = CBucket.conflicted := by
    simp only [commitBucket, hst, hpk]
    decide
  have hpsel : sel.isEmpty = false := by
    cases sel with
    | nil => cases hp
    | cons a l => rfl
  have hpc : p ∈ (calculateCommitinfo env sel).conflicted := by
    simp only [calculateCommitinfo, hpsel, Bool.false_eq_true, if_false]
    exact List.mem_filter.mpr ⟨hp, by rw [hb]; rfl⟩
  refine ⟨(calculateCommitinfo env sel).conflicted, ?_, hpc⟩
  simp only [projectCommitClassify]
  rw [if_neg (List.ne_nil_of_mem hpc)]

/-- Witness for C9: committing the untracked, absent name `ghost` on the
scenario-4 working copy. -/
theorem commit_untracked_conflict_witness :
    ∃ conflicts,
      projectCommitClassify prj2Env ["ghost"] =
        Except.error (PyExc.fileConflictError conflicts) ∧
      "ghost" ∈ conflicts :=
  commit_untracked_conflict prj2Env ["ghost"] "ghost" (by decide) (by decide)
    (by decide)

/-- C4 (amended): whenever the update classification completes, its four
lists are pairwise disjoint, and the five commit-classification lists are
always pairwise disjoint — though a single name may occur twice inside
the update `conflicted` list itself. -/
theorem classifier_pairwise_disjoint (env : ProjectEnv)
    (remote sel : List String) (ui : PackageUpdateInfo)
    (h : calculateUpdateinfo env remote sel = some ui) :
    updateListsDisjoint ui ∧
    ∀ csel, commitListsDisjoint (calculateCommitinfo env csel) := by
  refine ⟨?_, fun csel => commitinfo_disjoint env csel⟩
  cases hcs : candidateScan env (initialCandidates env remote) with
  | none => simp [calculateUpdateinfo, hcs] at h
  | some cr =>
    obtain ⟨c1, c2⟩ := cr
    simp only [calculateUpdateinfo, hcs, Option.some.injEq] at h
    subst h
    have hmem := (candidateScan_mem hcs).1
    have hmemK := (candidateScan_mem hcs).2
    refine ⟨?_, ?_, ?_, ?_, ?_, ?_⟩
    · intro a ha hb
      have hca := hmem a (mem_applySel ha)
      have hlocal := (mem_initialCandidates hca.1).2
      exact (mem_initialAdded
        (List.mem_filter.mp (mem_applySel hb)).1).2 hlocal
    · intro a ha hb
      have hca := hmem a (mem_applySel ha)
      have hrem := (mem_initialCandidates hca.1).1
      exact (updateLocalScan_deleted_mem (mem_applySel hb)).2.2.1 hrem
    · intro a ha hb
      have hca := hmem a (mem_applySel ha)
      have hf := candCheck_eq_false hca.2
      rcases List.mem_append.mp (mem_applySel hb) with hb1 | hb1
      · rcases List.mem_append.mp hb1 with hb2 | hb2
        · have h1 := (updateLocalScan_conflicted_mem hb2).2.2
          rw [hf.2.1] at h1
          exact Bool.noConfusion h1
        · have h2 := (hmemK a hb2).2
          rw [hca.2] at h2
          simp at h2
      · exact (mem_initialAdded (List.mem_filter.mp hb1).1).2
          (mem_initialCandidates hca.1).2
    · intro a ha hb
      have hnb := (mem_initialAdded
        (List.mem_filter.mp (mem_applySel ha)).1).2
      exact hnb (updateLocalScan_deleted_mem (mem_applySel hb)).1
    · intro a ha hb
      have hfa := List.mem_filter.mp (mem_applySel ha)
      have hnb := (mem_initialAdded hfa.1).2
      rcases List.mem_append.mp (mem_applySel hb) with hb1 | hb1
      · rcases List.mem_append.mp hb1 with hb2 | hb2
        · exact hnb (updateLocalScan_conflicted_mem hb2).1
        · exact hnb (mem_initialCandidates (hmemK a hb2).1).2
      · have h1 := hfa.2
        have h2 := (List.mem_filter.mp hb1).2
        rw [h2] at h1
        simp at h1
    · intro a ha hb
      have hdel := updateLocalScan_deleted_mem (mem_applySel ha)
      rcases List.mem_append.mp (mem_applySel hb) with hb1 | hb1
      · rcases List.mem_append.mp hb1 with hb2 | hb2
        · have hcf := updateLocalScan_conflicted_mem hb2
          exact hdel.2.2.2 ⟨hcf.2.1, hcf.2.2⟩
        · exact hdel.2.2.1 (mem_initialCandidates (hmemK a hb2).1).1
      · exact (mem_initialAdded (List.mem_filter.mp hb1).1).2 hdel.1

/-- Witness for C4's amended statement, at the scenario of C1's amended
remote listing. -/
theorem classifier_pairwise_disjoint_witness :
    updateListsDisjoint ⟨["foo", "abc"], ["osc"], ["del"], ["xxx"]⟩ ∧
    ∀ csel, commitListsDisjoint (calculateCommitinfo prj2Env csel) :=
  classifier_pairwise_disjoint prj2Env ["foo", "abc", "osc", "xxx"] []
    ⟨["foo", "abc"], ["osc"], ["del"], ["xxx"]⟩ (by decide)

/-- C8: `add(p)` followed by `remove(p)` (state still `'A'`, directory
still present) drops `p`'s manifest entry outright, leaving the manifest
as before, `status(p) = '?'` and `p` absent from `packages()`; `remove`
of a tracked package whose manifest state is `' '` or `'D'` (i.e. not
`'A'`) sets its entry's state to `'D'`; and `remove` of an untracked name
raises `ValueError`. -/
theorem add_remove_roundtrip (env : ProjectEnv) (pkg : String)
    (h0 : env.manifest.find? (fun x => x.1 == pkg) = none)
    (h2 : env.isDir pkg = true) (h3 : env.pathExists pkg = true)
    (h4 : env.wcIsProject pkg = false) (h5 : env.wcIsPackage pkg = false) :
    (∃ call env2 env3,
      projectAdd env pkg = Except.ok (call, env2) ∧
      projectRemove env2 pkg = Except.ok env3 ∧
      env3.manifest = env.manifest ∧
      statusOf env3 pkg = '?' ∧ pkg ∉ packagesOf env3) ∧
    (∀ q e, env.manifest.find? (fun x => x.1 == q) = some e →
      (e.2 = ' ' ∨ e.2 = 'D') →
      ∃ env4, projectRemove env q = Except.ok env4 ∧
        env4.manifest.find? (fun x => x.1 == q) = some (q, 'D')) ∧
    (∀ r, env.manifest.find? (fun x => x.1 == r) = none →
      projectRemove env r =
        Except.error (PyExc.valueError
          ("package " ++ r ++ " is not under version control"))) := by
  refine ⟨?_, ?_, ?_⟩
  · have hst : statusOf env pkg = '?' := statusOf_eq_unknown h0
    have hB : ¬ env.isDir pkg = false := by
      rw [h2]
      exact fun hh => Bool.noConfusion hh
    have hC : ¬ (env.wcIsProject pkg = true ∨ env.wcIsPackage pkg = true) := by
      rintro (hh | hh)
      · rw [h4] at hh
        exact Bool.noConfusion hh
      · rw [h5] at hh
        exact Bool.noConfusion hh
    have hadd : projectAdd env pkg = Except.ok
        (⟨env.path ++ "/" ++ pkg, pkg, env.name, env.apiurl,
          env.path ++ "/.osc/data/" ++ pkg⟩,
         { env with manifest := env.manifest ++ [(pkg, 'A')] }) := by
      unfold projectAdd
      rw [if_neg (fun hne => hne hst), if_neg hB, if_neg hC]
    have hf2 : (env.manifest ++ [(pkg, 'A')]).find?
        (fun x => x.1 == pkg) = some (pkg, 'A') := by
      rw [find?_append_of_none h0]
      simp [List.find?_cons]
    have hstA : statusOf { env with
        manifest := env.manifest ++ [(pkg, 'A')] } pkg = 'A' :=
      @statusOf_eq_of_find?
        { env with manifest := env.manifest ++ [(pkg, 'A')] }
        pkg (pkg, 'A') hf2 h3
    have hfilter : (env.manifest ++ [(pkg, 'A')]).filter
        (fun e => !(e.1 == pkg)) = env.manifest := by
      rw [List.filter_append]
      have h1 : env.manifest.filter (fun e => !(e.1 == pkg)) =
          env.manifest := by
        apply List.filter_eq_self.mpr
        intro e he
        have hne := List.find?_eq_none.mp h0 e he
        cases hb : (e.1 == pkg) with
        | true => exact absurd hb hne
        | false => simp [hb]
      rw [h1]
      simp
    have hrem : projectRemove
        { env with manifest := env.manifest ++ [(pkg, 'A')] } pkg
        = Except.ok { env with manifest := env.manifest } := by
      simp only [projectRemove, hstA]
      rw [if_pos trivial, hfilter, if_neg (by decide : ¬('A' = '?'))]
    refine ⟨_, _, { env with manifest := env.manifest }, hadd, hrem, rfl,
           statusOf_eq_unknown h0, ?_⟩
    intro hmem
    obtain ⟨e, he, heq⟩ := List.mem_map.mp hmem
    exact List.find?_eq_none.mp h0 e he (by simp [heq])
  · intro q e hq hwf2
    have hgoal : statusOf env q =
        if env.pathExists q = false ∧ e.2 ≠ 'D' then '!' else e.2 := by
      unfold statusOf
      rw [hq]
    have hstq : statusOf env q = '!' ∨ statusOf env q = e.2 := by
      rw [hgoal]
      split
      · exact Or.inl rfl
      · exact Or.inr rfl
    have hne1 : statusOf env q ≠ '?' := by
      rcases hstq with h | h
      · rw [h]; decide
      · rw [h]; rcases hwf2 with h2 | h2 <;> rw [h2] <;> decide
    have hne2 : statusOf env q ≠ 'A' := by
      rcases hstq with h | h
      · rw [h]; decide
      · rw [h]; rcases hwf2 with h2 | h2 <;> rw [h2] <;> decide
    refine ⟨{ env with manifest :=
        (env.manifest.map (fun x => if x.1 = q then (x.1, 'D') else x)) },
      ?_, ?_⟩
    · simp only [projectRemove]
      rw [if_neg hne1, if_neg hne2]
    · exact find?_map_setD hq
  · intro r hr
    simp only [projectRemove]
    rw [if_pos (statusOf_eq_unknown hr)]

/-- Witness for C8: adding and removing the untracked directory `asdf`
on the scenario-4 working copy. -/
theorem add_remove_roundtrip_witness :
    (∃ call env2 env3,
      projectAdd prj2Env "asdf" = Except.ok (call, env2) ∧
      projectRemove env2 "asdf" = Except.ok env3 ∧
      env3.manifest = prj2Env.manifest ∧
      statusOf env3 "asdf" = '?' ∧ "asdf" ∉ packagesOf env3) ∧
    (∀ q e, prj2Env.manifest.find? (fun x => x.1 == q) = some e →
      (e.2 = ' ' ∨ e.2 = 'D') →
      ∃ env4, projectRemove prj2Env q = Except.ok env4 ∧
        env4.manifest.find? (fun x => x.1 == q) = some (q, 'D')) ∧
    (∀ r, prj2Env.manifest.find? (fun x => x.1 == r) = none →
      projectRemove prj2Env r =
        Except.error (PyExc.valueError
          ("package " ++ r ++ " is not under version control"))) :=
  add_remove_roundtrip prj2Env "asdf" (by decide) (by decide) (by decide)
    (by decide) (by decide)

end Osc2
